import Mathlib

/-!
Shallow embedding of the wing B+tree (src/storage/bplus-tree.hpp and
src/storage/bplus-tree.cpp) over an executable model of the page manager.

Conventions of the embedding:
* bytes are natural numbers < 256, byte regions are lists of bytes;
* a page-manager fault (missing page, out-of-range access, a C++ exception
  such as std::out_of_range or std::invalid_argument, or an assertion
  failure) is modelled as Option.none and propagates;
* pgid_t is 4 bytes, pgoff_t is modelled as a 2-byte unsigned integer (its
  width is not fixed by the specification; none of the results below depend
  on it), sizeof(std::string_view) is 16 (LP64);
* the template parameter Compare is instantiated with the lexicographic
  order on byte strings.
-/

namespace Wing

/-- Little-endian encoding of v into n bytes (memcpy of an n-byte unsigned). -/
def toLE : Nat → Nat → List Nat
  | 0, _ => []
  | n + 1, v => (v % 256) :: toLE n (v / 256)

/-- Little-endian decoding of a byte region into a natural number. -/
def fromLE : List Nat → Nat
  | [] => 0
  | b :: bs => b % 256 + 256 * fromLE bs

/-- First n bytes of bs, zero-padded. Used where the C++ code memcpy-reads
past the end of a view (the bytes read there are unspecified; every result
proved below is independent of the padding choice). -/
def takePad (n : Nat) (bs : List Nat) : List Nat :=
  (bs ++ List.replicate n 0).take n

/-- Overwrite the region of bs starting at off with data. -/
def writeBytes (bs : List Nat) (off : Nat) (data : List Nat) : List Nat :=
  bs.take off ++ data ++ bs.drop (off + data.length)

/-- Whitespace recognized by std::stoi via strtol (C locale isspace). -/
def isSpaceByte (b : Nat) : Bool := b == 32 || (9 ≤ b && b ≤ 13)

/-- ASCII decimal digit. -/
def isDigitByte (b : Nat) : Bool := 48 ≤ b && b ≤ 57

/-- Decimal value of a digit string. -/
def digitsToNat (ds : List Nat) : Nat :=
  ds.foldl (fun a d => a * 10 + (d - 48)) 0

/-- The bytes a std::string sees after the value is passed through c_str():
everything up to the first NUL byte. -/
def cstrBytes (bs : List Nat) : List Nat :=
  bs.takeWhile (fun b => b != 0)

/-- std::stoi: skip whitespace, optional sign, then decimal digits; throwing
std::invalid_argument (no digits) is modelled as none. The inputs arising
here have at most 4 characters, so out_of_range cannot occur. -/
def stoiBytes (bs : List Nat) : Option Int :=
  let bs1 := bs.dropWhile isSpaceByte
  match bs1 with
  | 43 :: rest =>
      let ds := rest.takeWhile isDigitByte
      if ds.isEmpty then none else some (Int.ofNat (digitsToNat ds))
  | 45 :: rest =>
      let ds := rest.takeWhile isDigitByte
      if ds.isEmpty then none else some (-(Int.ofNat (digitsToNat ds)))
  | _ =>
      let ds := bs1.takeWhile isDigitByte
      if ds.isEmpty then none else some (Int.ofNat (digitsToNat ds))

/-- Conversion of the int produced by std::stoi to pgid_t (uint32). -/
def intToPgid (v : Int) : Nat := (v % (2 ^ 32 : Int)).toNat

/-- Size of a serialized inner slot as declared by InnerSlotSize
(bplus-tree.hpp line 61): sizeof(pgid_t) + length of the separator key. -/
def InnerSlotSize (sub : List Nat) : Nat := 4 + sub.length

/-- Size of a serialized leaf slot as declared by LeafSlotSize
(bplus-tree.hpp line 77): sizeof(pgoff_t) + key length + value length. -/
def LeafSlotSize (key value : List Nat) : Nat := 2 + key.length + value.length

/-- InnerSlotParse, bplus-tree.cpp lines 5-12. The first sizeof(pgid_t)
bytes are copied into a std::string, passed through c_str() (truncating at
the first NUL) and handed to std::stoi; the remainder of the region is the
separator key. std::stoi throwing is modelled as none. -/
def InnerSlotParse (slot : List Nat) : Option (Nat × List Nat) :=
  match stoiBytes (cstrBytes (slot.take 4)) with
  | none => none
  | some v => some (intToPgid v, slot.drop 4)

/-- InnerSlotSerialize, bplus-tree.cpp lines 13-19. The child id is written
as raw bytes; then sizeof(slot.strict_upper_bound) = sizeof(std::string_view)
= 16 bytes are copied from the key data pointer (reading past the view when
the key is shorter than 16 bytes; modelled by zero padding). -/
def InnerSlotSerialize (next : Nat) (sub : List Nat) : List Nat :=
  toLE 4 next ++ takePad 16 sub

/-- LeafSlotParse, bplus-tree.cpp lines 21-29. Reads a pgoff_t length
prefix, slices the key by that length, and takes the rest as the value;
slot.substr(key_leng + sizeof(key_leng)) throwing std::out_of_range when the
start position exceeds the region length is modelled as none, as is the
length-prefix memcpy on a region shorter than the prefix itself. -/
def LeafSlotParse (slot : List Nat) : Option (List Nat × List Nat) :=
  if slot.length < 2 then none
  else
    let kl := fromLE (slot.take 2)
    if kl + 2 ≤ slot.length then
      some ((slot.drop 2).take kl, slot.drop (kl + 2))
    else none

/-- LeafSlotSerialize, bplus-tree.cpp lines 30-37. The length prefix written
is key_len = sizeof(slot.key) = sizeof(std::string_view) = 16 (not the key
length), and 16 bytes each of key and value data are copied (reading past
the views when they are shorter; modelled by zero padding). -/
def LeafSlotSerialize (key value : List Nat) : List Nat :=
  toLE 2 16 ++ takePad 16 key ++ takePad 16 value

/-- Modelled from the spec: a page is either a plain byte page or a sorted
page holding a slot array and the fixed special region. The sorted-page
primitive (spec section 4.2) lives in the page manager, whose source is not
part of this repository. -/
inductive Page where
  | plain (bytes : List Nat)
  | sorted (slots : List (List Nat)) (special : List Nat)
deriving DecidableEq

/-- Modelled from the spec (section 6): the page manager tracks allocated
pages by id; nextId is the next fresh page id (page id 0 is never allocated,
it is the null sentinel of the leaf chain); cap is the slot capacity of a
sorted page. -/
structure PageManager where
  pages : List (Nat × Page)
  nextId : Nat
  cap : Nat
deriving DecidableEq

def updateAssoc : List (Nat × Page) → Nat → Page → List (Nat × Page)
  | [], id, p => [(id, p)]
  | (k, q) :: rest, id, p =>
      if k = id then (id, p) :: rest else (k, q) :: updateAssoc rest id p

def getPage (pm : PageManager) (id : Nat) : Option Page :=
  pm.pages.lookup id

def setPage (pm : PageManager) (id : Nat) (p : Page) : PageManager :=
  { pm with pages := updateAssoc pm.pages id p }

/-- PageManager::Free; the page must not be referenced afterwards. -/
def freePage (pm : PageManager) (id : Nat) : PageManager :=
  { pm with pages := pm.pages.filter (fun kv => kv.1 != id) }

/-- Modelled from the spec: AllocSortedPage followed by Init(specialLen),
which establishes the special region (modelled as zeroed). -/
def allocSorted (pm : PageManager) (specialLen : Nat) : Nat × PageManager :=
  (pm.nextId,
   { pm with
     pages := updateAssoc pm.pages pm.nextId
       (Page.sorted [] (List.replicate specialLen 0)),
     nextId := pm.nextId + 1 })

/-- GetSortedPage: a fault (missing page or a plain page viewed as sorted)
is none. -/
def getSorted (pm : PageManager) (id : Nat) :
    Option (List (List Nat) × List Nat) :=
  match getPage pm id with
  | some (Page.sorted sl sp) => some (sl, sp)
  | _ => none

/-- GetPlainPage. -/
def getPlain (pm : PageManager) (id : Nat) : Option (List Nat) :=
  match getPage pm id with
  | some (Page.plain b) => some b
  | _ => none

/-- Lexicographic order on byte strings: the instantiation of the Compare
template parameter used throughout. -/
def compareLex : List Nat → List Nat → Ordering
  | [], [] => Ordering.eq
  | [], _ :: _ => Ordering.lt
  | _ :: _, [] => Ordering.gt
  | a :: as, b :: bs =>
      if a < b then Ordering.lt
      else if b < a then Ordering.gt
      else compareLex as bs

/-- LeafSlotKeyCompare (bplus-tree.hpp lines 663-675): parse the stored leaf
slot and compare its key with the probe key; a parse failure is a thrown
exception, modelled as none. -/
def leafSlotKeyCompare (slot key : List Nat) : Option Ordering :=
  (LeafSlotParse slot).map (fun p => compareLex p.1 key)

/-- InnerSlotKeyCompare (bplus-tree.hpp lines 633-645): parse the stored
inner slot and compare its strict upper bound with the probe key. -/
def innerSlotKeyCompare (slot key : List Nat) : Option Ordering :=
  (InnerSlotParse slot).map (fun p => compareLex p.2 key)

def leafKC (key : List Nat) : List Nat → Option Ordering :=
  fun slot => leafSlotKeyCompare slot key

def innerKC (key : List Nat) : List Nat → Option Ordering :=
  fun slot => innerSlotKeyCompare slot key

/-- Modelled from the spec: LowerBound(key), the smallest slot index whose
key is ≥ key; on a sorted slot array this is the count of slots comparing
less. A comparator fault propagates. -/
def pageLowerBound (kcmp : List Nat → Option Ordering)
    (slots : List (List Nat)) : Option Nat :=
  (slots.mapM kcmp).map
    (fun os => (os.takeWhile (fun o => o == Ordering.lt)).length)

/-- Modelled from the spec: UpperBound(key), the smallest slot index whose
key is > key. -/
def pageUpperBound (kcmp : List Nat → Option Ordering)
    (slots : List (List Nat)) : Option Nat :=
  (slots.mapM kcmp).map
    (fun os =>
      (os.takeWhile (fun o => o == Ordering.lt || o == Ordering.eq)).length)

/-- Modelled from the spec: Find(key), the slot index holding an equal key,
or empty. -/
def pageFind (kcmp : List Nat → Option Ordering)
    (slots : List (List Nat)) : Option (Option Nat) :=
  (slots.mapM kcmp).map (fun os => os.findIdx? (fun o => o == Ordering.eq))

/-- Modelled from the spec: FindSlot(key), the slot content of an equal key,
or empty. -/
def pageFindSlot (kcmp : List Nat → Option Ordering)
    (slots : List (List Nat)) : Option (Option (List Nat)) :=
  (pageFind kcmp slots).map (fun oi => oi.bind (fun i => slots.get? i))

def pageUsed (slots : List (List Nat)) : Nat :=
  (slots.map List.length).sum

/-- Modelled from the spec: IsInsertable, whether a slot of the given size
still fits in the page (the slot-directory overhead is absorbed into cap). -/
def pageIsInsertable (cap : Nat) (slots : List (List Nat))
    (s : List Nat) : Bool :=
  pageUsed slots + s.length ≤ cap

def insertAt (i : Nat) (s : List Nat) : List (List Nat) → List (List Nat)
  | l =>
    match i, l with
    | 0, l => s :: l
    | _ + 1, [] => [s]
    | n + 1, x :: xs => x :: insertAt n s xs

/-- Modelled from the spec: InsertBeforeSlot(i, slot), an in-place insert
returning whether it succeeded. -/
def insertBeforeSlot (cap : Nat) (i : Nat) (s : List Nat)
    (slots : List (List Nat)) : Bool × List (List Nat) :=
  if pageIsInsertable cap slots s then (true, insertAt i s slots)
  else (false, slots)

/-- Modelled from the spec: DeleteSlot(i); deleting an out-of-range index is
a fault. -/
def deleteSlot (i : Nat) (slots : List (List Nat)) :
    Option (List (List Nat)) :=
  if i < slots.length then some (slots.eraseIdx i) else none

/-- Modelled from the spec: DeleteSlotByKey(key); an absent key leaves the
page unchanged, a comparator fault propagates. -/
def deleteSlotByKey (kcmp : List Nat → Option Ordering)
    (slots : List (List Nat)) : Option (List (List Nat)) :=
  (pageFind kcmp slots).map
    (fun oi => match oi with
      | none => slots
      | some i => slots.eraseIdx i)

/-- Modelled from the spec: SplitInsert(new_page, slot, i) inserts the slot
at position i and moves the high half of the resulting slot array into the
new page, leaving the low half behind; returns (low, high). -/
def splitInsertSlots (i : Nat) (s : List Nat) (slots : List (List Nat)) :
    List (List Nat) × List (List Nat) :=
  let all := insertAt i s slots
  let k := all.length / 2
  (all.take (all.length - k), all.drop (all.length - k))

/-- Modelled from the spec: ReadSpecial(off, len); reading outside the
special region is a fault. -/
def readSpecial (sp : List Nat) (off len : Nat) : Option (List Nat) :=
  if off + len ≤ sp.length then some ((sp.drop off).take len) else none

/-- GetInnerSpecial (bplus-tree.hpp lines 747-749): the right-most child id
stored in the inner page's special region. -/
def getInnerSpecialV (sp : List Nat) : Option Nat :=
  (readSpecial sp 0 4).map fromLE

/-- GetLeafPrev (bplus-tree.hpp lines 754-756). -/
def GetLeafPrev (pm : PageManager) (id : Nat) : Option Nat := do
  let (_, sp) ← getSorted pm id
  (readSpecial sp 0 4).map fromLE

/-- GetLeafNext (bplus-tree.hpp lines 760-762). -/
def GetLeafNext (pm : PageManager) (id : Nat) : Option Nat := do
  let (_, sp) ← getSorted pm id
  (readSpecial sp 4 4).map fromLE

/-- SetLeafPrev (bplus-tree.hpp lines 757-759). -/
def SetLeafPrev (pm : PageManager) (id v : Nat) : Option PageManager := do
  let (sl, sp) ← getSorted pm id
  pure (setPage pm id (Page.sorted sl (writeBytes sp 0 (toLE 4 v))))

/-- SetLeafNext (bplus-tree.hpp lines 763-766). -/
def SetLeafNext (pm : PageManager) (id v : Nat) : Option PageManager := do
  let (sl, sp) ← getSorted pm id
  pure (setPage pm id (Page.sorted sl (writeBytes sp 4 (toLE 4 v))))

/-- SetInnerSpecial (bplus-tree.hpp lines 751-753). -/
def SetInnerSpecial (pm : PageManager) (id v : Nat) : Option PageManager := do
  let (sl, sp) ← getSorted pm id
  pure (setPage pm id (Page.sorted sl (writeBytes sp 0 (toLE 4 v))))

def plainRead (pm : PageManager) (id off len : Nat) : Option (List Nat) := do
  let b ← getPlain pm id
  if off + len ≤ b.length then pure ((b.drop off).take len) else none

def plainWrite (pm : PageManager) (id off : Nat) (data : List Nat) :
    Option PageManager :=
  (getPlain pm id).map (fun b => setPage pm id (Page.plain (writeBytes b off data)))

/-- LevelNum (bplus-tree.hpp lines 768-770): byte 0 of the meta page. -/
def LevelNum (pm : PageManager) (meta : Nat) : Option Nat :=
  (plainRead pm meta 0 1).bind List.head?

/-- UpdateLevelNum (bplus-tree.hpp lines 771-774). -/
def UpdateLevelNum (pm : PageManager) (meta v : Nat) : Option PageManager :=
  plainWrite pm meta 0 [v % 256]

/-- Root (bplus-tree.hpp lines 775-777): the root page id at meta offset 4. -/
def Root (pm : PageManager) (meta : Nat) : Option Nat :=
  (plainRead pm meta 4 4).map fromLE

/-- UpdateRoot (bplus-tree.hpp lines 778-780). -/
def UpdateRoot (pm : PageManager) (meta v : Nat) : Option PageManager :=
  plainWrite pm meta 4 (toLE 4 v)

/-- The raw tuple_num field at meta offset 8, the quantity written by
UpdateTupleNum (the member function named TupleNum does not read it; see
TupleNum below). -/
def metaTupleNumField (pm : PageManager) (meta : Nat) : Option Nat :=
  (plainRead pm meta 8 8).map fromLE

/-- UpdateTupleNum (bplus-tree.hpp lines 781-784). -/
def UpdateTupleNum (pm : PageManager) (meta v : Nat) : Option PageManager :=
  plainWrite pm meta 8 (toLE 8 v)

/-- The B+tree handle: the private constructor (bplus-tree.hpp lines
690-692) stores the page-manager reference, the meta page id and the
comparator. The page-manager reference is threaded separately as the state
parameter of every operation, and the comparator is the fixed lexicographic
order, so the handle reduces to the meta page id. -/
structure BTree where
  meta_pgid : Nat
deriving DecidableEq

/-- MetaPageID (bplus-tree.hpp line 184). -/
def MetaPageID (t : BTree) : Nat := t.meta_pgid

/-- Open (bplus-tree.hpp lines 179-181): return Self(pgm, meta_pgid,
Compare()). The constructor performs no page access, so the store is
returned unchanged. -/
def Open (pm : PageManager) (meta_pgid : Nat) : BTree × PageManager :=
  ({ meta_pgid := meta_pgid }, pm)

/-- Create (bplus-tree.hpp lines 167-177): allocate the meta page (a fresh
plain page, modelled as 16 zero bytes) and a leaf root, then write root id,
level number 1 and tuple count 0 into the meta page. Returns the meta page
id together with the updated store. -/
def Create (pm : PageManager) : Option (Nat × PageManager) := do
  let meta := pm.nextId
  let pm1 : PageManager :=
    { pm with
      pages := updateAssoc pm.pages meta (Page.plain (List.replicate 16 0)),
      nextId := pm.nextId + 1 }
  let (rootId, pm2) := allocSorted pm1 8
  let pm3 ← UpdateRoot pm2 meta rootId
  let pm4 ← UpdateLevelNum pm3 meta 1
  let pm5 ← UpdateTupleNum pm4 meta 0
  pure (meta, pm5)

/-- InnerFirstPage (bplus-tree.hpp lines 803-808). -/
def InnerFirstPage (pm : PageManager) (id : Nat) : Option Nat := do
  let (sl, sp) ← getSorted pm id
  if sl.isEmpty then getInnerSpecialV sp
  else do
    let s ← sl.get? 0
    (InnerSlotParse s).map Prod.fst

/-- SmallestLeaf (bplus-tree.hpp lines 813-819): follow the first child for
level hops; the assertion level > 0 failing is a fault. -/
def SmallestLeaf (pm : PageManager) : Nat → Nat → Option Nat
  | 0, _ => none
  | 1, id => InnerFirstPage pm id
  | n + 2, id => do
      let c ← InnerFirstPage pm id
      SmallestLeaf pm (n + 1) c

/-- LeafSmallestKey (bplus-tree.hpp lines 792-796); an empty leaf fails the
assertion, modelled as a fault. -/
def LeafSmallestKey (pm : PageManager) (id : Nat) : Option (List Nat) := do
  let (sl, _) ← getSorted pm id
  let s0 ← sl.get? 0
  (LeafSlotParse s0).map Prod.fst

/-- InnerSmallestKey (bplus-tree.hpp lines 828-830). -/
def InnerSmallestKey (pm : PageManager) (id lvl : Nat) : Option (List Nat) :=
  (SmallestLeaf pm lvl id).bind (LeafSmallestKey pm)

/-- One descent step of the search loop (bplus-tree.hpp lines 416-427 and
identically 460-472, 277-289): UpperBound on the current inner page, then
the special child if the bound equals the slot count, else the child of the
bound slot. -/
def descendStep (pm : PageManager) (key : List Nat) (innId : Nat) :
    Option Nat := do
  let (sl, sp) ← getSorted pm innId
  let upper ← pageUpperBound (innerKC key) sl
  if upper == sl.length then getInnerSpecialV sp
  else do
    let s ← sl.get? upper
    (InnerSlotParse s).map Prod.fst

/-- The while (level > 1) descent of Get (bplus-tree.hpp lines 416-427),
recursing on the level value. -/
def getDescend (pm : PageManager) (key : List Nat) :
    Nat → Nat → Option Nat
  | 0, innId => some innId
  | 1, innId => some innId
  | level + 2, innId => do
      let child ← descendStep pm key innId
      getDescend pm key (level + 1) child

/-- The leaf selection shared by Get and Delete (bplus-tree.hpp lines
428-436 and 473-481): GetInnerSpecial is read unconditionally, then the
leaf is the special child if UpperBound equals the slot count, else the
child of the bound slot. -/
def selectLeaf (pm : PageManager) (key : List Nat) (innId : Nat) :
    Option Nat := do
  let (sl, sp) ← getSorted pm innId
  let upper ← pageUpperBound (innerKC key) sl
  let spa ← getInnerSpecialV sp
  if upper == sl.length then pure spa
  else do
    let s ← sl.get? upper
    (InnerSlotParse s).map Prod.fst

/-- Get (bplus-tree.hpp lines 403-444). The outer Option is a fault, the
inner Option is the present/absent result. The source dereferences the
optional FindSlot result at line 410/439; the dereference is modelled as
using the found content. -/
def Get (pm : PageManager) (meta : Nat) (key : List Nat) :
    Option (Option (List Nat)) := do
  let cur ← Root pm meta
  let lvl ← LevelNum pm meta
  let level := (lvl + 255) % 256
  if level == 0 then do
    let (sl, _) ← getSorted pm cur
    let fnd ← pageFindSlot (leafKC key) sl
    match fnd with
    | none => pure none
    | some content => do
        let p ← LeafSlotParse content
        pure (some p.2)
  else do
    let innId ← getDescend pm key level cur
    let leafId ← selectLeaf pm key innId
    let (lsl, _) ← getSorted pm leafId
    let fnd ← pageFindSlot (leafKC key) lsl
    match fnd with
    | none => pure none
    | some content => do
        let p ← LeafSlotParse content
        pure (some p.2)

/-- The while (level > 1) descent of Insert (bplus-tree.hpp lines 277-289):
like the search descent, but pushing the pair (child id, level before the
decrement) onto the parent stack. The returned list has the deepest entry
first. -/
def insertDescend (pm : PageManager) (key : List Nat) :
    Nat → Nat → List (Nat × Nat) → Option (List (Nat × Nat) × Nat)
  | 0, innId, par => some (par, innId)
  | 1, innId, par => some (par, innId)
  | level + 2, innId, par => do
      let child ← descendStep pm key innId
      insertDescend pm key (level + 1) child ((child, level + 2) :: par)

/-- The root-split arm of the promotion loop of Insert (bplus-tree.hpp
lines 322-337). cur is the ORIGINAL root id from line 244, which becomes
the new root's special child at line 335; at line 330 LeafSlotParse is
applied to an inner slot. -/
def insertPromoRootSplit (meta cur upper1 viewLen : Nat)
    (pm : PageManager) (innId : Nat) (buf : List Nat) :
    Option (Bool × PageManager) := do
  let (i_next_id, pmA) := allocSorted pm 4
  let (isl1, isp1) ← getSorted pmA innId
  let (_, xsp1) ← getSorted pmA i_next_id
  let (lo, hi) := splitInsertSlots upper1 (buf.take viewLen) isl1
  let pmB := setPage (setPage pmA innId (Page.sorted lo isp1))
    i_next_id (Page.sorted hi xsp1)
  let (ro2, pmC) := allocSorted pmB 4
  let pmD ← UpdateRoot pmC meta ro2
  let (isl2, _) ← getSorted pmD innId
  let s0 ← isl2.get? 0
  let pr ← LeafSlotParse s0
  let str_upp := pr.1
  let buf2 := InnerSlotSerialize i_next_id str_upp
  let (rsl, rsp) ← getSorted pmD ro2
  let (_, rsl1) := insertBeforeSlot pmD.cap 0
    (buf2.take (InnerSlotSize str_upp)) rsl
  let pmE := setPage pmD ro2 (Page.sorted rsl1 rsp)
  let pmF ← SetInnerSpecial pmE ro2 cur
  let lvl2 ← LevelNum pmF meta
  let pmG ← UpdateLevelNum pmF meta (lvl2 + 1)
  pure (true, pmG)

/-- The non-root arm of the promotion loop of Insert (bplus-tree.hpp lines
339-363): split the current inner page into a fresh sibling, convert the
sibling's last slot into its special child (lines 345-347), compute the
promotion key as InnerSmallestKey(inn, lev) (line 351), re-serialize it into
the shared buffer (line 354) and try to insert it into the popped parent
pa2 (lines 357-363). Returns the new store and buffer; the caller continues
with pa2 as the current inner page. -/
def insertPromoStep (key : List Nat) (upper1 viewLen : Nat)
    (pm : PageManager) (innId : Nat) (buf : List Nat) (pa2 lev2 : Nat) :
    Option (PageManager × List Nat) := do
  let (next_id, pmA) := allocSorted pm 4
  let (isl1, isp1) ← getSorted pmA innId
  let (_, xsp1) ← getSorted pmA next_id
  let (lo, hi) := splitInsertSlots upper1 (buf.take viewLen) isl1
  let pmB := setPage (setPage pmA innId (Page.sorted lo isp1))
    next_id (Page.sorted hi xsp1)
  let (hsl, _) ← getSorted pmB next_id
  let lastS ← hsl.get? (hsl.length - 1)
  let prL ← InnerSlotParse lastS
  let pmC ← SetInnerSpecial pmB next_id prL.1
  let (hsl2, hsp2) ← getSorted pmC next_id
  let hsl3 ← deleteSlot (hsl2.length - 1) hsl2
  let pmD := setPage pmC next_id (Page.sorted hsl3 hsp2)
  let s_upper2 ← InnerSmallestKey pmD innId lev2
  let buf3 := InnerSlotSerialize next_id s_upper2
  let (psl, psp) ← getSorted pmD pa2
  let upper3 ← pageUpperBound (innerKC key) psl
  let pmE ←
    if pageIsInsertable pmD.cap psl (buf3.take (InnerSlotSize s_upper2))
    then do
      let (_, psl1) := insertBeforeSlot pmD.cap upper3
        (buf3.take (InnerSlotSize s_upper2)) psl
      pure (setPage pmD pa2 (Page.sorted psl1 psp))
    else pure pmD
  pure (pmE, buf3)

/-- The while (!inn.IsInsertable(...)) promotion loop of Insert
(bplus-tree.hpp lines 320-364), as a fuel recursion. Fixed across
iterations, per C++ scoping: cur (the original root id, line 244), lev0
(the level popped at line 313, used by the root-split test at line 322 on
every iteration because line 343 re-declares a body-local lev), upper1 (the
UpperBound computed at line 315, used by SplitInsert at line 326 because
line 359 re-declares a body-local upper), and viewLen (the size of the
slot_next declared at line 306, used by the loop condition and lines
316-326 and 344). Mutable across iterations: the store, the current inner
page id (inn, reassigned at line 358), the serialization buffer addr
(rewritten at line 354) and the parent stack. -/
def insertPromoLoop (meta : Nat) (key : List Nat)
    (cur lev0 upper1 viewLen : Nat) :
    Nat → PageManager → Nat → List Nat → List (Nat × Nat) →
    Option (Bool × PageManager)
  | 0, _, _, _, _ => none
  | fuel + 1, pm, innId, buf, par => do
    let (isl, _) ← getSorted pm innId
    if pageIsInsertable pm.cap isl (buf.take viewLen) then
      -- loop exit, line 366: return true
      pure (true, pm)
    else do
      let lvlN ← LevelNum pm meta
      if lev0 == (lvlN + 255) % 256 then
        insertPromoRootSplit meta cur upper1 viewLen pm innId buf
      else
        match par with
        | [] => none
        | (pa2, lev2) :: parRest => do
          let (pmE, buf3) ←
            insertPromoStep key upper1 viewLen pm innId buf pa2 lev2
          insertPromoLoop meta key cur lev0 upper1 viewLen fuel pmE pa2 buf3 parRest

/-- The root-leaf-split branch of Insert (bplus-tree.hpp lines 258-274).
At line 261 the ORIGINAL leaf's prev pointer is set to the new leaf, at
line 262 the NEW leaf's next pointer is set to the original leaf; the split
at line 263 moves the high half to the new leaf. Then a new inner root is
allocated holding the slot {l_next_id, first key of the original leaf} and
the original leaf as its special child. -/
def insertRootLeafSplit (pm0 : PageManager) (meta cur slot_id : Nat)
    (s : List Nat) : Option (Bool × PageManager) := do
  let (l_next_id, pm1) := allocSorted pm0 8
  let pm2 ← SetLeafPrev pm1 cur l_next_id
  let pm3 ← SetLeafNext pm2 l_next_id cur
  let (csl, csp) ← getSorted pm3 cur
  let (_, nsp) ← getSorted pm3 l_next_id
  let (lo, hi) := splitInsertSlots slot_id s csl
  let pm4 := setPage (setPage pm3 cur (Page.sorted lo csp))
    l_next_id (Page.sorted hi nsp)
  let (ro_id, pm5) := allocSorted pm4 4
  let pm6 ← UpdateRoot pm5 meta ro_id
  let (csl2, _) ← getSorted pm6 cur
  let s0 ← csl2.get? 0
  let pr ← LeafSlotParse s0
  let str_upp := pr.1
  let rsv := takePad (InnerSlotSize str_upp)
    (InnerSlotSerialize l_next_id str_upp)
  let (rsl, rsp) ← getSorted pm6 ro_id
  let (_, rsl1) := insertBeforeSlot pm6.cap 0 rsv rsl
  let pm7 := setPage pm6 ro_id (Page.sorted rsl1 rsp)
  let pm8 ← SetInnerSpecial pm7 ro_id cur
  let pm9 ← UpdateLevelNum pm8 meta 2
  pure (true, pm9)

/-- The non-root leaf-split part of Insert (bplus-tree.hpp lines 298-318):
split the leaf into a fresh sibling (again linked with the original's prev
pointing at the new leaf and the new leaf's next pointing at the original,
lines 302-303), build the promotion slot from the first key of the original
leaf, pop the parent stack (whose top is the leaf itself, pushed at line
293) and try the promotion there, then enter the promotion loop. -/
def insertLeafSplit (pm0 : PageManager) (meta : Nat) (key : List Nat)
    (cur leafId slot_id : Nat) (s : List Nat) (par : List (Nat × Nat))
    (fuel : Nat) : Option (Bool × PageManager) := do
  let (leaf_next_id, pm1) := allocSorted pm0 8
  let (lsl1, lsp1) ← getSorted pm1 leafId
  let (_, nsp1) ← getSorted pm1 leaf_next_id
  let (lo, hi) := splitInsertSlots slot_id s lsl1
  let pm2 := setPage (setPage pm1 leafId (Page.sorted lo lsp1))
    leaf_next_id (Page.sorted hi nsp1)
  let pm3 ← SetLeafPrev pm2 leafId leaf_next_id
  let pm4 ← SetLeafNext pm3 leaf_next_id leafId
  let (lsl2, _) ← getSorted pm4 leafId
  let sl0 ← lsl2.get? 0
  let pr0 ← LeafSlotParse sl0
  let s_upper := pr0.1
  let buf := InnerSlotSerialize leaf_next_id s_upper
  let viewLen := InnerSlotSize s_upper
  match par with
  | [] => none
  | (pa, lev0) :: par1 => do
    let (psl, psp) ← getSorted pm4 pa
    let upper2 ← pageUpperBound (innerKC key) psl
    let pm5 ←
      if pageIsInsertable pm4.cap psl (buf.take viewLen) then do
        let (_, psl1) := insertBeforeSlot pm4.cap upper2
          (buf.take viewLen) psl
        pure (setPage pm4 pa (Page.sorted psl1 psp))
      else pure pm4
    insertPromoLoop meta key cur lev0 upper2 viewLen fuel pm5 pa buf par1

/-- Insert (bplus-tree.hpp lines 243-368). The serialization at lines
247-249 writes through an uninitialized char pointer; it is modelled as
writing into a fresh buffer of which the first LeafSlotSize bytes are used.
The optional result of Find at lines 253 and 292 is assigned to a slotid_t;
the not-found case is modelled as slot index 0 (none of the results proved
below depend on that index). No branch of Insert touches the tuple_num meta
field. -/
def Insert (pm0 : PageManager) (meta : Nat) (key value : List Nat)
    (fuel : Nat) : Option (Bool × PageManager) := do
  let cur ← Root pm0 meta
  let lvl ← LevelNum pm0 meta
  let level := (lvl + 255) % 256
  let s := takePad (LeafSlotSize key value) (LeafSlotSerialize key value)
  if level == 0 then do
    let (sl0, sp0) ← getSorted pm0 cur
    let fnd ← pageFind (leafKC key) sl0
    let slot_id := fnd.getD 0
    if pageIsInsertable pm0.cap sl0 s then do
      -- line 256: the result of InsertBeforeSlot is returned directly
      let (ok, sl1) := insertBeforeSlot pm0.cap slot_id s sl0
      pure (ok, setPage pm0 cur (Page.sorted sl1 sp0))
    else
      insertRootLeafSplit pm0 meta cur slot_id s
  else do
    -- lines 276-293
    let (par, innId) ← insertDescend pm0 key level cur []
    let (isl, _) ← getSorted pm0 innId
    let upper1 ← pageUpperBound (innerKC key) isl
    -- line 291: inn.Slot(upper) with no special-child case; out of range
    -- when the bound equals the slot count is a fault
    let sU ← isl.get? upper1
    let prU ← InnerSlotParse sU
    let leafId := prU.1
    let (lsl, lsp) ← getSorted pm0 leafId
    let fnd ← pageFind (leafKC key) lsl
    let slot_id := fnd.getD 0
    -- line 293: the leaf itself is pushed onto the parent stack
    let par := (leafId, 1) :: par
    if pageIsInsertable pm0.cap lsl s then do
      let (ok, lsl1) := insertBeforeSlot pm0.cap slot_id s lsl
      pure (ok, setPage pm0 leafId (Page.sorted lsl1 lsp))
    else
      insertLeafSplit pm0 meta key cur leafId slot_id s par fuel

/-- Iterator state: a leaf page id and a slot index. The constructor at
bplus-tree.hpp lines 96-98 initializes page_id_ and slot_id_ from
themselves, leaving them indeterminate; the model resolves this favorably by
storing the constructor arguments. Every divergence proved below holds
already under this favorable resolution. -/
structure Iter where
  page_id : Nat
  slot_id : Nat
deriving DecidableEq

/-- Iter::Next (bplus-tree.hpp lines 119-133): if the slot index has reached
SlotNum, move to the next leaf; on the sentinel 0 return at once, otherwise
the index is set to 0 and then, falling out of the if block, incremented to
1 (line 131 executes unconditionally). -/
def Iter.Next (pm : PageManager) (it : Iter) : Option Iter := do
  let (sl, sp) ← getSorted pm it.page_id
  if it.slot_id ≥ sl.length then do
    let nxt ← (readSpecial sp 4 4).map fromLE
    if nxt == 0 then pure { it with page_id := nxt }
    else pure { page_id := nxt, slot_id := 1 }
  else pure { it with slot_id := it.slot_id + 1 }

/-- Iter::Cur (bplus-tree.hpp lines 110-118): reopen the tree, read the
current slot of the current page and parse it. -/
def Iter.Cur (pm : PageManager) (it : Iter) :
    Option (List Nat × List Nat) := do
  let (sl, _) ← getSorted pm it.page_id
  let s ← sl.get? it.slot_id
  LeafSlotParse s

/-- Begin (bplus-tree.hpp lines 528-533): the iterator is constructed from
the ROOT page id and slot 0 (not from the left-most leaf). -/
def Begin (pm : PageManager) (meta : Nat) : Option Iter :=
  (Root pm meta).map (fun r => { page_id := r, slot_id := 0 })

/-- The while loop of TupleNum (bplus-tree.hpp lines 618-626), as a fuel
recursion. -/
def tupleNumGo (pm : PageManager) :
    Nat → Nat → Nat → Iter → Nat → Option Nat
  | 0, _, _, _, _ => none
  | fuel + 1, s1, p1, it, sum =>
    let s2 := it.slot_id
    let p2 := it.page_id
    if s1 != s2 && p1 != p2 then do
      let it2 ← Iter.Next pm it
      tupleNumGo pm fuel s2 p2 it2 (sum + 1)
    else pure sum

/-- TupleNum (bplus-tree.hpp lines 610-629): counts via an iterator walk
from Begin instead of reading the meta field; note line 614 initializes p1
from Slot_id(), not Page_id(). -/
def TupleNum (pm : PageManager) (meta : Nat) (fuel : Nat) : Option Nat := do
  let beg ← Begin pm meta
  let s1 := beg.slot_id
  let p1 := beg.slot_id
  let it ← Iter.Next pm beg
  tupleNumGo pm fuel s1 p1 it 0

/-- IncreaseTupleNum (bplus-tree.hpp lines 785-790): reads the count via the
TupleNum scan, then writes the meta field (size_t arithmetic modulo 2^64).
Never called by Insert or Delete in the source. -/
def IncreaseTupleNum (pm : PageManager) (meta : Nat) (delta : Int)
    (fuel : Nat) : Option PageManager := do
  let t ← TupleNum pm meta fuel
  UpdateTupleNum pm meta (((Int.ofNat t + delta).emod (2 ^ 64 : Int)).toNat)

/-- IsEmpty (bplus-tree.hpp lines 236-239). -/
def IsEmpty (pm : PageManager) (meta : Nat) (fuel : Nat) : Option Bool :=
  (TupleNum pm meta fuel).map (fun t => t == 0)

/-- The while (level > 1) descent of Delete (bplus-tree.hpp lines 460-472),
pushing the visited child ids. -/
def deleteDescend (pm : PageManager) (key : List Nat) :
    Nat → Nat → List Nat → Option (List Nat × Nat)
  | 0, innId, par => some (par, innId)
  | 1, innId, par => some (par, innId)
  | level + 2, innId, par => do
      let child ← descendStep pm key innId
      deleteDescend pm key (level + 1) child (child :: par)

/-- The while ((inn.SlotNum()==0) && (!par.empty())) collapse loop of Delete
(bplus-tree.hpp lines 502-510). -/
def deleteCollapseWhile (pm : PageManager) (key : List Nat) (paId : Nat)
    (par : List Nat) : Nat → Option PageManager
  | 0 => none
  | fuel + 1 => do
    let (sl, _) ← getSorted pm paId
    match sl, par with
    | [], pa2 :: parRest => do
        let pmA := freePage pm paId
        let (sl2, sp2) ← getSorted pmA pa2
        let upper ← pageUpperBound (innerKC key) sl2
        let sl3 ← deleteSlot upper sl2
        let pmB := setPage pmA pa2 (Page.sorted sl3 sp2)
        deleteCollapseWhile pmB key pa2 parRest fuel
    | _, _ => pure pm

/-- The emptied-leaf unlink block of Delete (bplus-tree.hpp lines 488-510):
stitch the neighbours together (the prev/next sentinel value 0 is not
checked, so GetLeafPage(0) is a fault), free the leaf, then pop the parent
stack, whose top is the freed leaf itself (pushed at line 482), and remove
separators upward while pages empty out. -/
def deleteUnlinkEmptyLeaf (pm1 : PageManager) (key : List Nat)
    (leafId : Nat) (par : List Nat) (fuel : Nat) : Option PageManager := do
  let prev ← GetLeafPrev pm1 leafId
  let nxt ← GetLeafNext pm1 leafId
  let _ ← getSorted pm1 prev
  let _ ← getSorted pm1 nxt
  let pmA ← SetLeafNext pm1 prev nxt
  let pmB ← SetLeafPrev pmA nxt prev
  let pmC := freePage pmB leafId
  match par with
  | [] => none
  | pa :: parRest => do
    let (sl2, sp2) ← getSorted pmC pa
    let upper ← pageUpperBound (innerKC key) sl2
    let sl3 ← deleteSlot upper sl2
    let pmD := setPage pmC pa (Page.sorted sl3 sp2)
    deleteCollapseWhile pmD key pa parRest fuel

/-- The multi-level branch of Delete (bplus-tree.hpp lines 459-518):
descend, locate the leaf, fail without mutation on an absent key, otherwise
remove the slot, run the underflow collapse when the leaf emptied, and
finally consult IsEmpty (the TupleNum iterator scan) before returning
true. -/
def deleteMulti (pm0 : PageManager) (meta : Nat) (key : List Nat)
    (level fuel : Nat) : Option (Bool × PageManager) := do
  let cur ← Root pm0 meta
  let (par, innId) ← deleteDescend pm0 key level cur []
  let leafId ← selectLeaf pm0 key innId
  -- line 482: the leaf itself is pushed onto the parent stack
  let par := leafId :: par
  let (lsl, lsp) ← getSorted pm0 leafId
  let fnd ← pageFindSlot (leafKC key) lsl
  match fnd with
  | none => pure (false, pm0)
  | some _ => do
    let lsl1 ← deleteSlotByKey (leafKC key) lsl
    let pm1 := setPage pm0 leafId (Page.sorted lsl1 lsp)
    let pm2 ←
      if lsl1.length == 0 then deleteUnlinkEmptyLeaf pm1 key leafId par fuel
      else pure pm1
    -- lines 512-515
    let e ← IsEmpty pm2 meta fuel
    let pm3 ← if e then UpdateLevelNum pm2 meta 1 else pure pm2
    pure (true, pm3)

/-- Delete (bplus-tree.hpp lines 446-519). -/
def Delete (pm0 : PageManager) (meta : Nat) (key : List Nat)
    (fuel : Nat) : Option (Bool × PageManager) := do
  let cur ← Root pm0 meta
  let lvl ← LevelNum pm0 meta
  let level := (lvl + 255) % 256
  if level == 0 then do
    -- lines 450-458
    let (sl, sp) ← getSorted pm0 cur
    let fnd ← pageFindSlot (leafKC key) sl
    match fnd with
    | none => pure (false, pm0)
    | some _ => do
        let sl1 ← deleteSlotByKey (leafKC key) sl
        pure (true, setPage pm0 cur (Page.sorted sl1 sp))
  else
    deleteMulti pm0 meta key level fuel

/-- Update (bplus-tree.hpp lines 372-380): Delete, and on success Insert
(whose result is discarded) and return true; otherwise return false. -/
def Update (pm : PageManager) (meta : Nat) (key value : List Nat)
    (fuel : Nat) : Option (Bool × PageManager) := do
  let (ok, pm1) ← Delete pm meta key fuel
  if ok then do
    let (_, pm2) ← Insert pm1 meta key value fuel
    pure (true, pm2)
  else pure (false, pm1)

/-- Take (bplus-tree.hpp lines 521-526). -/
def Take (pm : PageManager) (meta : Nat) (key : List Nat) (fuel : Nat) :
    Option (Option (List Nat) × PageManager) := do
  let v ← Get pm meta key
  let (_, pm1) ← Delete pm meta key fuel
  pure (v, pm1)

/-- The while (1) loop of Destroy (bplus-tree.hpp lines 198-231), as a fuel
recursion. The stack has the current page on top (root at the bottom). Note
that in the empty branch the special child is freed as a single page
regardless of the subtree below it, and that GetInnerPage vs GetLeafPage
coincide in the model (both are sorted pages). -/
def destroyLoop (pm : PageManager) :
    Nat → List Nat → Nat → Nat → Option PageManager
  | 0, _, _, _ => none
  | fuel + 1, stack, curId, level => do
    let (sl, sp) ← getSorted pm curId
    match sl with
    | s0 :: _ => do
        let pr ← InnerSlotParse s0
        let s := pr.1
        if level > 1 then
          destroyLoop pm fuel (s :: stack) s (level - 1)
        else do
          let _ ← getSorted pm s
          let pm2 := freePage pm s
          let sl1 ← deleteSlot 0 sl
          let pm3 := setPage pm2 curId (Page.sorted sl1 sp)
          destroyLoop pm3 fuel stack curId level
    | [] => do
        let spa ← getInnerSpecialV sp
        let _ ← getSorted pm spa
        let pm2 := freePage pm spa
        let pm3 := freePage pm2 curId
        match stack with
        | [] => none
        | _ :: rest =>
          match rest with
          | [] => pure pm3
          | top :: _ => do
              let (tsl, tsp) ← getSorted pm3 top
              let tsl1 ← deleteSlot 0 tsl
              let pm4 := setPage pm3 top (Page.sorted tsl1 tsp)
              destroyLoop pm4 fuel rest top (level + 1)

/-- Destroy (bplus-tree.hpp lines 186-235). -/
def Destroy (pm : PageManager) (meta : Nat) (fuel : Nat) :
    Option PageManager := do
  let root ← Root pm meta
  let lvl ← LevelNum pm meta
  let level := (lvl + 255) % 256
  if level == 0 then do
    let _ ← getSorted pm root
    let pm2 := freePage pm root
    let _ ← getPlain pm2 meta
    pure (freePage pm2 meta)
  else do
    let pm2 ← destroyLoop pm fuel [root] root level
    let _ ← getPlain pm2 meta
    pure (freePage pm2 meta)

/-- A leaf slot in the well-formed on-disk format of the layout comment
(bplus-tree.hpp lines 36-46): pgoff_t length prefix, key bytes, value
bytes. -/
def leafEnc (key value : List Nat) : List Nat :=
  toLE 2 key.length ++ key ++ value

/-- An inner slot whose child-id field holds the ASCII digit of d followed
by NUL padding, so that InnerSlotParse (std::stoi) recovers d; the tail is
the separator key. -/
def innerEnc (d : Nat) (sub : List Nat) : List Nat :=
  [48 + d, 0, 0, 0] ++ sub

/-- Meta page contents: level number at offset 0, root page id at offset 4,
tuple count at offset 8 (bplus-tree.hpp lines 23-27). -/
def metaBytes (lvl root tup : Nat) : List Nat :=
  [lvl, 0, 0, 0] ++ toLE 4 root ++ toLE 8 tup

/-- An empty page manager. -/
def pmEmpty : PageManager := { pages := [], nextId := 1, cap := 64 }

/-- A one-level tree: meta page 1, root leaf 2 holding key 0x61 with value
0x31. -/
def pmLeafA : PageManager :=
  { pages :=
      [(1, Page.plain (metaBytes 1 2 1)),
       (2, Page.sorted [leafEnc [97] [49]] (List.replicate 8 0))],
    nextId := 3, cap := 64 }

/-- A two-level tree: meta page 1, inner root 2 with separator 0x6d and
children leaf 3 (keys 0x61, 0x62) and leaf 4 (key 0x78), chained
3 <-> 4 with 0 sentinels at the ends. -/
def pmTwoLevel : PageManager :=
  { pages :=
      [(1, Page.plain (metaBytes 2 2 3)),
       (2, Page.sorted [innerEnc 3 [109]] (toLE 4 4)),
       (3, Page.sorted [leafEnc [97] [49], leafEnc [98] [50]]
            (toLE 4 0 ++ toLE 4 4)),
       (4, Page.sorted [leafEnc [120] [57]] (toLE 4 3 ++ toLE 4 0))],
    nextId := 5, cap := 64 }

/-- Two chained leaves with two slots each, for stepping the iterator
across a leaf boundary. -/
def pmChain : PageManager :=
  { pages :=
      [(2, Page.sorted [leafEnc [97] [49], leafEnc [98] [50]]
            (toLE 4 0 ++ toLE 4 3)),
       (3, Page.sorted [leafEnc [99] [51], leafEnc [100] [52]]
            (toLE 4 2 ++ toLE 4 0))],
    nextId := 4, cap := 64 }

/-- 16-byte keys and values (the length sizeof(std::string_view), at which
the broken leaf serializer happens to produce well-formed slots, letting a
split run to completion). -/
def k16b : List Nat := List.replicate 16 98
def v16b : List Nat := List.replicate 16 50
def k16d : List Nat := List.replicate 16 100
def v16d : List Nat := List.replicate 16 52
def k16f : List Nat := List.replicate 16 102
def v16f : List Nat := List.replicate 16 54

/-- A one-level tree whose root leaf 2 holds two 34-byte slots (keys k16b
and k16d); with capacity 70 a third 34-byte slot does not fit, so the next
insert takes the root-leaf-split path. -/
def pmFull : PageManager :=
  { pages :=
      [(1, Page.plain (metaBytes 1 2 2)),
       (2, Page.sorted [leafEnc k16b v16b, leafEnc k16d v16d]
            (List.replicate 8 0))],
    nextId := 3, cap := 70 }

/-- A three-level tree: meta 1, root 2 (level 2) with child inner 3 and
special inner 4; inner 3 has child leaf 5 and special leaf 6; inner 4 has
child leaf 7 and special leaf 8; leaves chained 5-6-7-8. -/
def pmThree : PageManager :=
  { pages :=
      [(1, Page.plain (metaBytes 3 2 4)),
       (2, Page.sorted [innerEnc 3 [109]] (toLE 4 4)),
       (3, Page.sorted [innerEnc 5 [99]] (toLE 4 6)),
       (4, Page.sorted [innerEnc 7 [119]] (toLE 4 8)),
       (5, Page.sorted [leafEnc [97] [49]] (toLE 4 0 ++ toLE 4 6)),
       (6, Page.sorted [leafEnc [100] [52]] (toLE 4 5 ++ toLE 4 7)),
       (7, Page.sorted [leafEnc [112] [53]] (toLE 4 6 ++ toLE 4 8)),
       (8, Page.sorted [leafEnc [122] [54]] (toLE 4 7 ++ toLE 4 0))],
    nextId := 9, cap := 64 }

/-- Create a tree, insert key 0x61 with value 0x31, then look the key up:
the Insert return value paired with the Get result. -/
def c1Run : Option (Bool × Option (Option (List Nat))) := do
  let (meta, pm1) ← Create pmEmpty
  let (ok, pm2) ← Insert pm1 meta [97] [49] 100
  pure (ok, Get pm2 meta [97])

/-- Insert key 0x61 (already present) into pmLeafA: the return value and
the resulting slot count of the root leaf. -/
def c2Run : Option (Bool × Nat) := do
  let (ok, pm1) ← Insert pmLeafA 1 [97] [50] 100
  let (sl, _) ← getSorted pm1 2
  pure (ok, sl.length)

/-- Create a tree and insert one key: the raw tuple_num meta field paired
with the slot count of the root leaf afterwards. -/
def c4Run : Option (Nat × Nat) := do
  let (meta, pm1) ← Create pmEmpty
  let (_, pm2) ← Insert pm1 meta [97] [49] 100
  let t ← metaTupleNumField pm2 meta
  let (sl, _) ← getSorted pm2 2
  pure (t, sl.length)

/-- Insert the third 34-byte slot into pmFull, forcing the root-leaf split,
then read the leaf-chain pointers: (return value, prev of the original
leaf 2, next of leaf 2, prev of the new leaf 3, next of leaf 3). -/
def c7Run : Option (Bool × Nat × Nat × Nat × Nat) := do
  let (ok, pm2) ← Insert pmFull 1 k16f v16f 100
  let p2 ← GetLeafPrev pm2 2
  let n2 ← GetLeafNext pm2 2
  let p3 ← GetLeafPrev pm2 3
  let n3 ← GetLeafNext pm2 3
  pure (ok, p2, n2, p3, n3)

/-- Update the present key 0x61 to value 0x32 in pmLeafA: the return value
paired with the subsequent Get result. -/
def c8Run : Option (Bool × Option (Option (List Nat))) := do
  let (ok, pm1) ← Update pmLeafA 1 [97] [50] 100
  pure (ok, Get pm1 1 [97])

/-- Destroy the three-level tree and list the page ids still allocated. -/
def c9Run : Option (List Nat) :=
  (Destroy pmThree 1 100).map (fun pm => pm.pages.map Prod.fst)

/-- C1: the claim states that after a successful insert(k, v) on a tree not
containing k, Get(k) returns v. On the code this fails already on a fresh
tree: Insert 0x61 0x31 reports success, but the slot it stored carries the
length prefix sizeof(std::string_view) = 16 (LeafSlotSerialize), so the
subsequent Get faults while parsing the 4-byte slot (std::out_of_range)
instead of returning the value 0x31. -/
theorem C1_insert_then_get_diverges : c1Run = some (true, none) := by
  decide

/-- C2: the claim states that Insert on a tree already containing the key
returns false and mutates nothing. The code never tests for an existing
key: inserting key 0x61 into a tree whose leaf already holds key 0x61
returns true and grows the leaf to two slots (a duplicate). -/
theorem C2_duplicate_insert_diverges : c2Run = some (true, 2) := by
  decide

/-- C3: the claim states that both slot codecs round-trip. They do not:
InnerSlotSerialize writes the child id as raw bytes while InnerSlotParse
feeds those bytes to std::stoi (which throws on the bytes of child id 2),
and LeafSlotSerialize writes the length prefix 16 = sizeof(std::string_view)
instead of the key length, so parsing the serialized slot of key 0x61 and
value 0x31 faults. -/
theorem C3_slot_roundtrip_diverges :
    InnerSlotParse ((InnerSlotSerialize 2 [97]).take (InnerSlotSize [97]))
        = none ∧
    LeafSlotParse ((LeafSlotSerialize [97] [49]).take
        (LeafSlotSize [97] [49])) = none := by
  decide

/-- C4: the claim states that tuple_num is incremented exactly once per
successful Insert and then equals the leaf-slot count of a full scan. No
branch of Insert (nor of Delete) touches the field: after Create and one
successful Insert the meta field still reads 0 while the root leaf holds 1
slot. -/
theorem C4_tuple_num_not_updated : c4Run = some (0, 1) := by
  decide

/-- C5: the claim states that Delete(k) on a tree containing k returns
true. On the two-level tree pmTwoLevel, deleting the present key 0x61
removes the slot but then runs IsEmpty(), whose TupleNum scan starts the
iterator at the ROOT page id and reads the 4-byte inner special region at
offset 4, an out-of-range access: Delete faults instead of returning
true. -/
theorem C5_delete_present_key_diverges :
    Delete pmTwoLevel 1 [97] 100 = none := by
  decide

/-- C6: the claim states that Begin positions at slot 0 of the left-most
leaf and that Next resets the slot index to 0 when crossing to the next
leaf. On pmTwoLevel, Begin yields the ROOT page id 2 although the left-most
leaf is page 3; and on the two chained leaves of pmChain, stepping past the
end of leaf 2 lands on slot 1 of leaf 3 (the reset to 0 is followed by the
unconditional increment), skipping slot 0. -/
theorem C6_iterator_diverges :
    Begin pmTwoLevel 1 = some { page_id := 2, slot_id := 0 } ∧
    SmallestLeaf pmTwoLevel 1 2 = some 3 ∧
    Iter.Next pmChain { page_id := 2, slot_id := 2 }
        = some { page_id := 3, slot_id := 1 } := by
  decide

/-- C7: the claim states that after a leaf split the new sibling (holding
the high half) is linked as the right neighbour of the original leaf
(original.next = new, new.prev = original). After the split forced on
pmFull the pointers read: original leaf 2 has prev = 3 and next = 0, new
leaf 3 has prev = 0 and next = 2 — the new leaf holding the high half was
linked to the LEFT of the original, and the adjacent-leaf key ordering of
the chain is violated. -/
theorem C7_leaf_split_chain_diverges : c7Run = some (true, 3, 0, 0, 2) := by
  decide

/-- C8: the claim states that when Update(k, v) returns true, Get(k)
afterwards returns v. Updating the present key 0x61 to value 0x32 on
pmLeafA returns true (Delete succeeded), but the re-insert stores a slot
with length prefix 16, so the subsequent Get faults instead of returning
0x32. -/
theorem C8_update_then_get_diverges : c8Run = some (true, none) := by
  decide

/-- C9: the claim states that Destroy frees every page reachable from the
root at every level. On the three-level tree pmThree, the special
(right-most) child of the root is freed as a single page without descending
into its subtree: after Destroy the leaves 7 and 8 are still allocated. -/
theorem C9_destroy_leaks_pages : c9Run = some [7, 8] := by
  decide

/-- C10: Open(pgm, meta_pgid) performs no page access and no validation:
for every page manager state and every page id it succeeds, merely storing
the id in the handle and leaving the page store untouched; the meta page is
first read only by a subsequent operation. -/
theorem C10_open_stores_id_without_access (pm : PageManager) (id : Nat) :
    MetaPageID (Open pm id).1 = id ∧ (Open pm id).2 = pm :=
  ⟨rfl, rfl⟩

end Wing
